import Mathlib

/-!
Verification of the simple-chat generation loop
(`src/examples/simple-chat/simple-chat.cpp`).

The external llama.cpp engine (tokenizer, decoder, sampler, detokenizer,
chat template) is modelled as an abstract `Engine` structure / an abstract
render function; the orchestration code of `generate` and of the `main`
session loop is embedded faithfully, statement by statement.
-/

namespace SimpleChat

/-- Byte size of one character when encoded in UTF-8. Models the fact that
the C++ code works on `std::string` byte lengths while Lean strings count
characters. -/
def charUtf8Size (c : Char) : Nat :=
  if c.val < 0x80 then 1
  else if c.val < 0x800 then 2
  else if c.val < 0x10000 then 3
  else 4

/-- `piece.length()` of the C++ `std::string`: the number of BYTES of the
UTF-8 encoded piece. -/
def byteLen (s : String) : Nat :=
  s.data.foldl (fun n c => n + charUtf8Size c) 0

/-- `piece[0]` for a one-byte piece: its first (ASCII) character. -/
def firstChar (s : String) : Char :=
  s.data.headD (Char.ofNat 0)

/-- The suspicious single characters of line 168:
`ch == '(' || ch == ')' || ch == '@'`. -/
def suspChar (c : Char) : Bool :=
  c = '(' || c = ')' || c = '@'

/-- Lines 166-177 of `generate`: the anomaly-counter update performed on
each display piece. Single-byte pieces: suspicious punctuation increments,
anything else resets to 0. Other pieces: the two fixed glyphs increment,
anything else (including the empty piece) resets to 0. -/
def updateAnomaly (a : Nat) (piece : String) : Nat :=
  if byteLen piece = 1 then
    if suspChar (firstChar piece) then a + 1 else 0
  else if piece = "ó" || piece = "gó" then a + 1
  else 0

/-- Derived classification: does a piece increment the anomaly counter? -/
def suspiciousPiece (piece : String) : Bool :=
  if byteLen piece = 1 then suspChar (firstChar piece)
  else piece = "ó" || piece = "gó"

/-- The external engine, as consumed by `generate`:
`n_ctx` is `llama_n_ctx(ctx)`, `n_predict` the CLI `-n` value,
`sample_at i` the token the sampler chain returns at its `i`-th
invocation, `is_eog` the vocabulary's end-of-generation test, and
`piece_of` the detokenizer (`llama_token_to_piece`). Token ids are `Int`
so that the `-1` sentinel of `last_token_id` is representable. -/
structure Engine where
  n_ctx : Nat
  n_predict : Int
  sample_at : Nat → Int
  is_eog : Int → Bool
  piece_of : Int → String

/-- The mutable state of the `while (true)` loop of `generate`
(lines 122-127), plus instrumentation recording the interaction with the
external engine: `used` is `llama_memory_seq_pos_max + 1` (each decode of
a batch of `b` tokens advances it by `b`), `sampleIdx` counts sampler
invocations, `decodes` records every `llama_decode` call as the pair
(used-before-decode, batch size). -/
structure LoopState where
  response : String
  pieces : List String
  last_token_id : Int
  same_token_count : Nat
  anomaly_count : Nat
  n_decoded : Nat
  used : Nat
  batchSize : Nat
  sampleIdx : Nat
  decodeCalls : Nat
  sampleCalls : Nat
  decodes : List (Nat × Nat)
  deriving DecidableEq, Repr

/-- Why one turn's loop ended. `ctxExceeded` models the
`exit(0)` after "context size exceeded" (line 135); `mainStop` the
`break` of line 154 (end-of-generation, max tokens, or stall);
`anomalyStop` the `break` of line 186; `outOfFuel` only marks that the
chosen fuel ran out before the program stopped. -/
inductive StopReason where
  | ctxExceeded
  | mainStop
  | anomalyStop
  | outOfFuel
  deriving DecidableEq, Repr

/-- Result of running the loop: the final loop state and why it ended. -/
structure GenResult where
  state : LoopState
  reason : StopReason
  deriving DecidableEq, Repr

/-- One iteration of the `while (true)` loop of `generate`
(lines 128-196), faithful to the statement order:
overflow check, decode, sample, stall bookkeeping, main stop check,
detokenize, anomaly bookkeeping, anomaly stop check, emit. -/
def genStep (eng : Engine) (st : LoopState) : LoopState ⊕ GenResult :=
  -- lines 130-136: if (n_ctx_used + batch.n_tokens > n_ctx) exit
  if eng.n_ctx < st.used + st.batchSize then
    .inr ⟨st, .ctxExceeded⟩
  else
    -- line 138: llama_decode(ctx, batch)
    let st1 := { st with
      used := st.used + st.batchSize,
      decodeCalls := st.decodeCalls + 1,
      decodes := st.decodes ++ [(st.used, st.batchSize)] }
    -- line 144: new_token_id = llama_sampler_sample(smpl, ctx, -1)
    let tok := eng.sample_at st1.sampleIdx
    let st2 := { st1 with
      sampleIdx := st1.sampleIdx + 1,
      sampleCalls := st1.sampleCalls + 1 }
    -- lines 145-150: stall bookkeeping
    let st3 :=
      if tok = st2.last_token_id then
        { st2 with same_token_count := st2.same_token_count + 1 }
      else
        { st2 with same_token_count := 1, last_token_id := tok }
    -- line 153: eog / max-tokens / stall stop
    if eng.is_eog tok || eng.n_predict ≤ (st3.n_decoded : Int)
        || 32 ≤ st3.same_token_count then
      .inr ⟨st3, .mainStop⟩
    else
      -- lines 158-163: llama_token_to_piece
      let piece := eng.piece_of tok
      -- lines 166-177: anomaly bookkeeping
      let st4 := { st3 with anomaly_count := updateAnomaly st3.anomaly_count piece }
      -- lines 180-187: anomaly stop
      if 10 ≤ st4.anomaly_count then
        .inr ⟨st4, .anomalyStop⟩
      else
        -- lines 189-195: emit the piece, single-token next batch
        .inl { st4 with
          response := st4.response ++ piece,
          pieces := st4.pieces ++ [piece],
          n_decoded := st4.n_decoded + 1,
          batchSize := 1 }

/-- The `while (true)` loop, with fuel bounding the number of
iterations (the C++ loop has no bound of its own). -/
def genLoop (eng : Engine) : Nat → LoopState → GenResult
  | 0, st => ⟨st, .outOfFuel⟩
  | fuel + 1, st =>
    match genStep eng st with
    | .inr r => r
    | .inl st' => genLoop eng fuel st'

/-- The loop state right after lines 122-127: empty response, sentinel
`last_token_id = -1`, zeroed counters, the prompt tokens as the pending
batch, `used0` positions already occupied by earlier turns. -/
def initState (used0 n_prompt : Nat) : LoopState :=
  { response := ""
    pieces := []
    last_token_id := -1
    same_token_count := 0
    anomaly_count := 0
    n_decoded := 0
    used := used0
    batchSize := n_prompt
    sampleIdx := 0
    decodeCalls := 0
    sampleCalls := 0
    decodes := [] }

/-- The whole of `generate` after tokenization: run the loop on the
prompt batch. -/
def generate (eng : Engine) (fuel used0 n_prompt : Nat) : GenResult :=
  genLoop eng fuel (initState used0 n_prompt)

/-! ### Symbolic traces of a run that keeps emitting

The loop state after `k` completed emit iterations is a simple function
of the sample stream; these definitions spell it out so that runs can be
analysed by induction. -/

/-- Value of `same_token_count` right after the `i`-th sample has been
folded in (`i` counted from 0). The first sample always yields 1:
`last_token_id` starts at the sentinel `-1`, and both branches of
lines 145-150 leave the counter at 1 in that case. -/
def sameRun (eng : Engine) : Nat → Nat
  | 0 => 1
  | i + 1 => if eng.sample_at (i + 1) = eng.sample_at i then sameRun eng i + 1 else 1

/-- Value of `anomaly_count` right after the piece of the `i`-th sample
has been classified. -/
def anomalyAfter (eng : Engine) : Nat → Nat
  | 0 => updateAnomaly 0 (eng.piece_of (eng.sample_at 0))
  | i + 1 => updateAnomaly (anomalyAfter eng i) (eng.piece_of (eng.sample_at (i + 1)))

/-- The response accumulated after `k` emitted pieces. -/
def respUpTo (eng : Engine) : Nat → String
  | 0 => ""
  | k + 1 => respUpTo eng k ++ eng.piece_of (eng.sample_at k)

/-- The list of pieces emitted after `k` emit iterations. -/
def piecesUpTo (eng : Engine) : Nat → List String
  | 0 => []
  | k + 1 => piecesUpTo eng k ++ [eng.piece_of (eng.sample_at k)]

/-- The decode calls (used-before, batch size) performed by the first `k`
iterations: the prompt batch first, then single-token batches. -/
def decodesUpTo (used0 n_prompt : Nat) : Nat → List (Nat × Nat)
  | 0 => []
  | k + 1 => decodesUpTo used0 n_prompt k ++
      [if k = 0 then (used0, n_prompt) else (used0 + n_prompt + (k - 1), 1)]

/-- The loop state after `k` completed emit iterations of a run in which
every iteration so far emitted. -/
def stateAfter (eng : Engine) (used0 n_prompt : Nat) : Nat → LoopState
  | 0 => initState used0 n_prompt
  | k + 1 =>
    { response := respUpTo eng (k + 1)
      pieces := piecesUpTo eng (k + 1)
      last_token_id := eng.sample_at k
      same_token_count := sameRun eng k
      anomaly_count := anomalyAfter eng k
      n_decoded := k + 1
      used := used0 + n_prompt + k
      batchSize := 1
      sampleIdx := k + 1
      decodeCalls := k + 1
      sampleCalls := k + 1
      decodes := decodesUpTo used0 n_prompt (k + 1) }

/-! ### Tokenization of the prompt (lines 112-119) -/

/-- `llama_memory_seq_pos_max` for the single active sequence, as a
function of the number of occupied positions: `-1` when empty, otherwise
the highest occupied position. -/
def seq_pos_max (used : Nat) : Int := (used : Int) - 1

/-- The two flag arguments passed to `llama_tokenize`. -/
structure TokenizeArgs where
  add_special : Bool
  parse_special : Bool
  deriving DecidableEq, Repr

/-- Lines 112-117 of `generate`: `is_first` is
`llama_memory_seq_pos_max(...) == -1`, and the prompt is tokenized with
`add_special := is_first` and `parse_special := true`. -/
def generateTokenizeArgs (used : Nat) : TokenizeArgs :=
  { add_special := seq_pos_max used == -1, parse_special := true }

/-! ### The session loop of `main` (lines 207-249) -/

/-- One entry of the `messages` vector (`llama_chat_message`). -/
structure ChatMsg where
  role : String
  content : String
  deriving DecidableEq, Repr

/-- The cross-turn formatting state of `main`: the `messages` vector and
the byte offset `prev_len`. -/
structure ChatState where
  messages : List ChatMsg
  prev_len : Nat
  deriving DecidableEq, Repr

/-- One iteration of the `while (true)` loop of `main` for a non-empty
user input line (lines 220-248). The chat template
(`llama_chat_apply_template`) is the abstract `render` function: `none`
models a negative required-length return. The generated response text is
passed in as `resp`, since its content is produced by `generate` and does
not influence the formatting bookkeeping verified here. The two-pass
render into the resized buffer (lines 224-228) collapses to a single
application of the pure `render`. On success, the new state and the
turn's prompt slice `formatted[prev_len : new_len]` are returned; a
negative render length gives `Except.error 1` (`return 1`, lines 229-232
and 245-248). -/
def doTurn (render : List ChatMsg → Bool → Option (List Char))
    (user resp : String) (st : ChatState) : Except Nat (ChatState × List Char) :=
  let msgs1 := st.messages ++ [⟨"user", user⟩]
  match render msgs1 true with
  | none => .error 1
  | some full =>
    -- line 235: std::string prompt(formatted.begin() + prev_len, formatted.begin() + new_len)
    let prompt := full.drop st.prev_len
    let msgs2 := msgs1 ++ [⟨"assistant", resp⟩]
    match render msgs2 false with
    | none => .error 1
    | some full2 => .ok (⟨msgs2, full2.length⟩, prompt)

/-- The session loop over a list of (user input, generated response)
pairs, threading the `ChatState`; the first failing turn aborts the whole
session with its exit code. -/
def runSession (render : List ChatMsg → Bool → Option (List Char))
    (st : ChatState) : List (String × String) → Except Nat ChatState
  | [] => .ok st
  | (u, r) :: rest =>
    match doTurn render u r st with
    | .error c => .error c
    | .ok (st', _) => runSession render st' rest

/-- The append-only assumption on the chat template stated by the spec:
re-rendering after appending turns only appends bytes, never changes the
bytes already rendered without the generation suffix. -/
def AppendOnly (render : List ChatMsg → Bool → Option (List Char)) : Prop :=
  ∀ msgs ms flag g f, render msgs false = some g →
    render (msgs ++ ms) flag = some f → ∃ t, f = g ++ t

/-- The cursor invariant of `ChatState`: either nothing has been
committed yet (`prev_len = 0`), or `prev_len` is exactly the length of
the suffix-free render of the committed messages. -/
def RenderBase (render : List ChatMsg → Bool → Option (List Char))
    (st : ChatState) : Prop :=
  (st.messages = [] ∧ st.prev_len = 0) ∨
  ∃ g, render st.messages false = some g ∧ st.prev_len = g.length

/-! ### Concrete instances used by the closed witness statements -/

/-- A simple append-only template: each message rendered as
`<role>content`, with `!` as the generation-prompt suffix. -/
def fmtMsg (m : ChatMsg) : List Char :=
  ('<' :: m.role.data) ++ ('>' :: m.content.data)

/-- A concrete renderer built from `fmtMsg`; it always succeeds. -/
def renderEx (msgs : List ChatMsg) (flag : Bool) : Option (List Char) :=
  some ((msgs.map fmtMsg).flatten ++ if flag then ['!'] else [])

/-- A renderer that always reports a negative required length. -/
def renderNone (_ : List ChatMsg) (_ : Bool) : Option (List Char) := none

/-- A renderer that succeeds with the generation suffix and fails
without it. -/
def renderHalf (_ : List ChatMsg) (flag : Bool) : Option (List Char) :=
  if flag then some [] else none

/-- Engine that always samples token 7, rendered as `(`. -/
def engParen : Engine :=
  { n_ctx := 1000, n_predict := 1000, sample_at := fun _ => 7,
    is_eog := fun _ => false, piece_of := fun _ => "(" }

/-- Engine producing four `(` pieces, then one `x` piece, then `(`
forever, with `n_predict = 14`. -/
def engMix : Engine :=
  { n_ctx := 1000, n_predict := 14, sample_at := fun i => if i = 4 then 0 else 1,
    is_eog := fun _ => false, piece_of := fun t => if t = 0 then "x" else "(" }

/-- Engine that always samples token 5, rendered as `a`. -/
def engConst : Engine :=
  { n_ctx := 100, n_predict := 100, sample_at := fun _ => 5,
    is_eog := fun _ => false, piece_of := fun _ => "a" }

/-- Engine sampling pairwise distinct tokens, all rendered as `x`, with
`n_predict = 3`. -/
def engDistinct : Engine :=
  { n_ctx := 100, n_predict := 3, sample_at := fun i => (i : Int),
    is_eog := fun _ => false, piece_of := fun _ => "x" }

/-- Engine with a tiny context used in the overflow witnesses. -/
def engSmall : Engine :=
  { n_ctx := 12, n_predict := 100, sample_at := fun _ => 5,
    is_eog := fun _ => false, piece_of := fun _ => "a" }

/-- Engine whose `-n` parameter is zero. -/
def engZero : Engine :=
  { n_ctx := 50, n_predict := 0, sample_at := fun _ => 4,
    is_eog := fun _ => false, piece_of := fun _ => "a" }

/-- A loop state that has already seen nine suspicious pieces. -/
def stAnomaly9 : LoopState := { initState 0 3 with anomaly_count := 9 }

/-- The anomaly-stop result that `genStep engParen` produces from
`stAnomaly9`. -/
def resAnomaly : GenResult :=
  ⟨{ response := "", pieces := [], last_token_id := 7, same_token_count := 1,
     anomaly_count := 10, n_decoded := 0, used := 3, batchSize := 3, sampleIdx := 1,
     decodeCalls := 1, sampleCalls := 1, decodes := [(0, 3)] }, .anomalyStop⟩

/-- The formatting state at session start: no messages, `prev_len = 0`. -/
def chatStart : ChatState := ⟨[], 0⟩

/-- The formatting state after one `renderEx` turn with input `a` and
response `b`. -/
def chatAfter : ChatState := ⟨[⟨"user", "a"⟩, ⟨"assistant", "b"⟩], 19⟩

/-- The prompt `renderEx` produces for that first turn. -/
def promptW : List Char := ['<', 'u', 's', 'e', 'r', '>', 'a', '!']

/-- The loop state carried out of one `genStep`, whether the loop
continues or stops. -/
def stepState : LoopState ⊕ GenResult → LoopState
  | .inl st => st
  | .inr r => r.state

/-! ## Helper lemmas -/

theorem genStep_emit (eng : Engine) (used0 n_prompt k : Nat)
    (hctx : used0 + n_prompt + k ≤ eng.n_ctx)
    (heog : eng.is_eog (eng.sample_at k) = false)
    (hnp : (k : Int) < eng.n_predict)
    (hsr : sameRun eng k < 32)
    (han : anomalyAfter eng k < 10) :
    genStep eng (stateAfter eng used0 n_prompt k)
      = .inl (stateAfter eng used0 n_prompt (k + 1)) := by
  cases k with
  | zero =>
    by_cases h0 : eng.sample_at 0 = -1 <;>
      · simp_all [genStep, stateAfter, initState, sameRun, anomalyAfter,
          respUpTo, piecesUpTo, decodesUpTo]
        repeat rw [if_neg (by omega)]
  | succ k =>
    by_cases h0 : eng.sample_at (k + 1) = eng.sample_at k <;>
      · simp_all [genStep, stateAfter, initState, sameRun, anomalyAfter,
          respUpTo, piecesUpTo, decodesUpTo]
        repeat rw [if_neg (by omega)]
        simp [Nat.add_assoc]

theorem genLoop_run (eng : Engine) (used0 n_prompt : Nat) (k : Nat)
    (h : ∀ j < k, used0 + n_prompt + j ≤ eng.n_ctx ∧
      eng.is_eog (eng.sample_at j) = false ∧
      (j : Int) < eng.n_predict ∧ sameRun eng j < 32 ∧ anomalyAfter eng j < 10) :
    ∀ fuel, genLoop eng (k + fuel) (stateAfter eng used0 n_prompt 0)
      = genLoop eng fuel (stateAfter eng used0 n_prompt k) := by
  induction k with
  | zero => intro fuel; rw [Nat.zero_add]
  | succ k ih =>
    intro fuel
    have hs : genLoop eng (fuel + 1) (stateAfter eng used0 n_prompt k)
        = genLoop eng fuel (stateAfter eng used0 n_prompt (k + 1)) := by
      obtain ⟨h1, h2, h3, h4, h5⟩ := h k (Nat.lt_succ_self k)
      simp [genLoop, genStep_emit eng used0 n_prompt k h1 h2 h3 h4 h5]
    calc genLoop eng (k + 1 + fuel) (stateAfter eng used0 n_prompt 0)
        = genLoop eng (k + (fuel + 1)) (stateAfter eng used0 n_prompt 0) := by
          congr 1; omega
      _ = genLoop eng (fuel + 1) (stateAfter eng used0 n_prompt k) :=
          ih (fun j hj => h j (Nat.lt_succ_of_lt hj)) (fuel + 1)
      _ = genLoop eng fuel (stateAfter eng used0 n_prompt (k + 1)) := hs

theorem genStep_decodes_of_fit (eng : Engine) (st : LoopState)
    (h : st.used + st.batchSize ≤ eng.n_ctx) :
    (stepState (genStep eng st)).decodes = st.decodes ++ [(st.used, st.batchSize)] := by
  unfold genStep
  rw [if_neg (by omega)]
  dsimp only
  repeat' split
  all_goals simp [stepState]

theorem genStep_overflow (eng : Engine) (st : LoopState)
    (h : eng.n_ctx < st.used + st.batchSize) :
    genStep eng st = .inr ⟨st, .ctxExceeded⟩ := by
  unfold genStep
  rw [if_pos h]

theorem genStep_decodes_sub (eng : Engine) (st : LoopState) :
    ∀ e ∈ st.decodes, e ∈ (stepState (genStep eng st)).decodes := by
  intro e he
  by_cases h : eng.n_ctx < st.used + st.batchSize
  · rw [genStep_overflow eng st h]; simpa [stepState] using he
  · rw [genStep_decodes_of_fit eng st (by omega)]
    exact List.mem_append_left _ he

theorem genLoop_decodes_sub (eng : Engine) :
    ∀ fuel (st : LoopState), ∀ e ∈ st.decodes,
      e ∈ (genLoop eng fuel st).state.decodes := by
  intro fuel
  induction fuel with
  | zero => intro st e he; simpa [genLoop] using he
  | succ fuel ih =>
    intro st e he
    have h := genStep_decodes_sub eng st e he
    rcases hstep : genStep eng st with st' | r
    · rw [hstep] at h
      simpa [genLoop, hstep] using ih st' e (by simpa [stepState] using h)
    · rw [hstep] at h
      simpa [genLoop, hstep, stepState] using h

theorem genLoop_decodes_bound (eng : Engine) :
    ∀ fuel (st : LoopState),
      (∀ e ∈ st.decodes, e.1 + e.2 ≤ eng.n_ctx) →
      ∀ e ∈ (genLoop eng fuel st).state.decodes, e.1 + e.2 ≤ eng.n_ctx := by
  intro fuel
  induction fuel with
  | zero => intro st h e he; exact h e (by simpa [genLoop] using he)
  | succ fuel ih =>
    intro st h e he
    by_cases hov : eng.n_ctx < st.used + st.batchSize
    · rw [genLoop, genStep_overflow eng st hov] at he
      exact h e he
    · have hfit : (stepState (genStep eng st)).decodes
          = st.decodes ++ [(st.used, st.batchSize)] :=
        genStep_decodes_of_fit eng st (by omega)
      have hall : ∀ x ∈ (stepState (genStep eng st)).decodes, x.1 + x.2 ≤ eng.n_ctx := by
        intro x hx
        rw [hfit] at hx
        rcases List.mem_append.mp hx with hx | hx
        · exact h x hx
        · simp at hx; subst hx; omega
      rcases hstep : genStep eng st with st' | r
      · rw [hstep] at hall
        exact ih st' (by simpa [stepState] using hall) e (by simpa [genLoop, hstep] using he)
      · rw [hstep] at hall
        exact hall e (by simpa [genLoop, hstep, stepState] using he)

theorem genStep_mainStop (eng : Engine) (used0 n_prompt k : Nat)
    (hctx : used0 + n_prompt + (k + 1) ≤ eng.n_ctx)
    (hstop : eng.is_eog (eng.sample_at (k + 1)) = true ∨
      eng.n_predict ≤ ((k + 1 : Nat) : Int) ∨ 32 ≤ sameRun eng (k + 1)) :
    genStep eng (stateAfter eng used0 n_prompt (k + 1)) =
      .inr ⟨{ response := respUpTo eng (k + 1)
              pieces := piecesUpTo eng (k + 1)
              last_token_id := eng.sample_at (k + 1)
              same_token_count := sameRun eng (k + 1)
              anomaly_count := anomalyAfter eng k
              n_decoded := k + 1
              used := used0 + n_prompt + (k + 1)
              batchSize := 1
              sampleIdx := k + 2
              decodeCalls := k + 2
              sampleCalls := k + 2
              decodes := decodesUpTo used0 n_prompt (k + 1) ++ [(used0 + n_prompt + k, 1)] },
            .mainStop⟩ := by
  have hc : ¬ eng.n_ctx < used0 + n_prompt + k + 1 := by omega
  by_cases h0 : eng.sample_at (k + 1) = eng.sample_at k <;>
    · simp_all [genStep, stateAfter, sameRun]
      repeat rw [if_neg (by omega)]
      try rw [if_pos (by tauto)]
      simp [Nat.add_assoc]

theorem updateAnomaly_not_susp {p : String} (h : suspiciousPiece p = false) (a : Nat) :
    updateAnomaly a p = 0 := by
  unfold suspiciousPiece at h
  unfold updateAnomaly
  by_cases hb : byteLen p = 1
  · rw [if_pos hb] at h
    rw [if_pos hb, if_neg (by simp [h])]
  · rw [if_neg hb] at h
    rw [if_neg hb, if_neg (by simp [h])]

theorem sameRun_const (eng : Engine) (t : Int) (hs : ∀ i, eng.sample_at i = t) :
    ∀ i, sameRun eng i = i + 1 := by
  intro i
  induction i with
  | zero => rfl
  | succ i ih => simp [sameRun, hs, ih]

theorem anomalyAfter_zero (eng : Engine)
    (h : ∀ i, suspiciousPiece (eng.piece_of (eng.sample_at i)) = false) :
    ∀ i, anomalyAfter eng i = 0 := by
  intro i
  induction i with
  | zero => simp [anomalyAfter, updateAnomaly_not_susp (h 0)]
  | succ i ih => simp [anomalyAfter, ih, updateAnomaly_not_susp (h (i + 1))]

theorem piecesUpTo_const (eng : Engine) (t : Int) (hs : ∀ i, eng.sample_at i = t) :
    ∀ k, piecesUpTo eng k = List.replicate k (eng.piece_of t) := by
  intro k
  induction k with
  | zero => rfl
  | succ k ih => rw [piecesUpTo, ih, hs, List.replicate_succ']

theorem piecesUpTo_length (eng : Engine) : ∀ k, (piecesUpTo eng k).length = k := by
  intro k
  induction k with
  | zero => rfl
  | succ k ih => simp [piecesUpTo, ih]

theorem appendOnly_renderEx : AppendOnly renderEx := by
  intro msgs ms flag g f hg hf
  simp [renderEx] at hg hf
  exact ⟨(ms.map fmtMsg).flatten ++ (if flag then ['!'] else []), by rw [← hf, ← hg]⟩

/-! ## The claims -/

/-- C1: in every generation-loop iteration the context-overflow check
runs before the decode call. With `used + b = capacity + 1` the loop ends
with the context-size-exceeded notice and that batch is never decoded
(the recorded decode calls stay untouched); with `used + b = capacity`
the decode of that very batch is performed; and every recorded decode
call satisfies `used + batch ≤ capacity`, so decode is never invoked
with a batch that would exceed the context capacity. -/
theorem overflow_check_precedes_decode (eng : Engine) (st : LoopState) (fuel : Nat) :
    (st.used + st.batchSize = eng.n_ctx + 1 →
      genLoop eng (fuel + 1) st = ⟨st, .ctxExceeded⟩) ∧
    (st.used + st.batchSize = eng.n_ctx →
      (st.used, st.batchSize) ∈ (genLoop eng (fuel + 1) st).state.decodes) ∧
    ((∀ e ∈ st.decodes, e.1 + e.2 ≤ eng.n_ctx) →
      ∀ e ∈ (genLoop eng fuel st).state.decodes, e.1 + e.2 ≤ eng.n_ctx) := by
  refine ⟨fun h => ?_, fun h => ?_, genLoop_decodes_bound eng fuel st⟩
  · rw [genLoop, genStep_overflow eng st (by omega)]
  · have hmem : (st.used, st.batchSize) ∈ (stepState (genStep eng st)).decodes := by
      rw [genStep_decodes_of_fit eng st (by omega)]
      exact List.mem_append_right _ (List.mem_singleton_self _)
    rcases hstep : genStep eng st with st' | r
    · rw [hstep] at hmem
      rw [genLoop, hstep]
      exact genLoop_decodes_sub eng fuel st' _ (by simpa [stepState] using hmem)
    · rw [hstep] at hmem
      rw [genLoop, hstep]
      simpa [stepState] using hmem

/-- Closed instance of `overflow_check_precedes_decode` on the concrete
engine `engSmall` (capacity 12). -/
theorem overflow_check_precedes_decode_witness :
    (genLoop engSmall 1 (initState 10 3) = ⟨initState 10 3, .ctxExceeded⟩) ∧
    ((10, 2) ∈ (genLoop engSmall 1 (initState 10 2)).state.decodes) ∧
    (∀ e ∈ (genLoop engSmall 3 (initState 0 3)).state.decodes, e.1 + e.2 ≤ engSmall.n_ctx) :=
  ⟨(overflow_check_precedes_decode engSmall (initState 10 3) 0).1 (by decide),
   (overflow_check_precedes_decode engSmall (initState 10 2) 0).2.1 (by decide),
   (overflow_check_precedes_decode engSmall (initState 0 3) 3).2.2 (by simp [initState])⟩

/-- C2: when the sampler returns the same token id at every step, no
end-of-generation fires, `n_predict` exceeds 31, the piece is not
anomaly-suspicious and the context is large enough, the run emits
exactly 31 pieces, samples a 32nd time, and stops through the stall
guard with `same_token_count = 32`; the 32nd token is neither added to
`pieces` nor to `response`. The counter equals `i + 1` after the `i`-th
sample, so 31 consecutive identical tokens leave it at 31 and do not
trigger the guard. -/
theorem stall_guard_stops_at_32 (eng : Engine) (t : Int) (used0 n_prompt fuel : Nat)
    (hs : ∀ i, eng.sample_at i = t)
    (heog : eng.is_eog t = false)
    (hnp : (31 : Int) < eng.n_predict)
    (hpc : suspiciousPiece (eng.piece_of t) = false)
    (hctx : used0 + n_prompt + 31 ≤ eng.n_ctx) :
    (∀ i < 32, sameRun eng i = i + 1) ∧
    (generate eng (32 + fuel) used0 n_prompt).reason = .mainStop ∧
    (generate eng (32 + fuel) used0 n_prompt).state.same_token_count = 32 ∧
    (generate eng (32 + fuel) used0 n_prompt).state.n_decoded = 31 ∧
    (generate eng (32 + fuel) used0 n_prompt).state.pieces
      = List.replicate 31 (eng.piece_of t) ∧
    (generate eng (32 + fuel) used0 n_prompt).state.response = respUpTo eng 31 ∧
    (generate eng (32 + fuel) used0 n_prompt).state.sampleCalls = 32 := by
  have hsr := sameRun_const eng t hs
  have han : ∀ i, anomalyAfter eng i = 0 :=
    anomalyAfter_zero eng (fun i => by rw [hs]; exact hpc)
  have hrun := genLoop_run eng used0 n_prompt 31
    (fun j hj => ⟨by omega, by rw [hs]; exact heog, by omega,
      by rw [hsr]; omega, by rw [han]; omega⟩) (fuel + 1)
  have hstep := genStep_mainStop eng used0 n_prompt 30
    (by omega) (Or.inr (Or.inr (by rw [hsr])))
  have hgen : generate eng (32 + fuel) used0 n_prompt =
      genLoop eng (fuel + 1) (stateAfter eng used0 n_prompt 31) := by
    show genLoop eng (32 + fuel) (initState used0 n_prompt) = _
    rw [show (32 + fuel) = 31 + (fuel + 1) from by omega]
    exact hrun
  rw [hgen]
  rw [show (31 : Nat) = 30 + 1 from rfl, genLoop, hstep]
  refine ⟨fun i _ => hsr i, rfl, ?_, rfl, ?_, rfl, rfl⟩
  · show sameRun eng (30 + 1) = 32
    rw [hsr]
  · show piecesUpTo eng (30 + 1) = _
    rw [piecesUpTo_const eng t hs]

/-- Closed instance of `stall_guard_stops_at_32` on `engConst`, which
repeats token 5 forever. -/
theorem stall_guard_stops_at_32_witness :
    (31 : Int) < engConst.n_predict ∧
    ((∀ i < 32, sameRun engConst i = i + 1) ∧
     (generate engConst (32 + 0) 0 4).reason = .mainStop ∧
     (generate engConst (32 + 0) 0 4).state.same_token_count = 32 ∧
     (generate engConst (32 + 0) 0 4).state.n_decoded = 31 ∧
     (generate engConst (32 + 0) 0 4).state.pieces
       = List.replicate 31 (engConst.piece_of 5) ∧
     (generate engConst (32 + 0) 0 4).state.response = respUpTo engConst 31 ∧
     (generate engConst (32 + 0) 0 4).state.sampleCalls = 32) :=
  ⟨by decide, stall_guard_stops_at_32 engConst 5 0 4 0 (fun _ => rfl) rfl
    (by decide) (by decide) (by decide)⟩

/-- C3: the anomaly counter increments on a single-byte piece that is
one of `(`, `)`, `@`, resets to 0 on any other single-byte piece,
increments on the two fixed glyphs `ó` and `gó`, and resets to 0 on any
other piece; the loop stops exactly when the counter reaches 10: on the
constant-`(` engine nine pieces are emitted and the tenth triggers the
anomaly stop, while a non-suspicious piece at position 5 resets the
counter so that nine further suspicious pieces do not trigger (that run
ends through the max-length stop with the counter at 9). -/
theorem anomaly_counter_evolution :
    (∀ (a : Nat) (p : String), byteLen p = 1 → suspChar (firstChar p) = true →
      updateAnomaly a p = a + 1) ∧
    (∀ (a : Nat) (p : String), byteLen p = 1 → suspChar (firstChar p) = false →
      updateAnomaly a p = 0) ∧
    (∀ a : Nat, updateAnomaly a "ó" = a + 1 ∧ updateAnomaly a "gó" = a + 1) ∧
    (∀ (a : Nat) (p : String), byteLen p ≠ 1 → p ≠ "ó" → p ≠ "gó" →
      updateAnomaly a p = 0) ∧
    ((genLoop engParen 100 (initState 0 3)).reason = .anomalyStop ∧
     (genLoop engParen 100 (initState 0 3)).state.pieces.length = 9 ∧
     (genLoop engParen 100 (initState 0 3)).state.anomaly_count = 10) ∧
    ((genLoop engMix 100 (initState 0 3)).reason = .mainStop ∧
     (genLoop engMix 100 (initState 0 3)).state.pieces.length = 14 ∧
     (genLoop engMix 100 (initState 0 3)).state.anomaly_count = 9) := by
  refine ⟨?_, ?_, ?_, ?_, by decide, by decide⟩
  · intro a p h1 h2
    unfold updateAnomaly
    rw [if_pos h1, if_pos (by simp [h2])]
  · intro a p h1 h2
    unfold updateAnomaly
    rw [if_pos h1, if_neg (by simp [h2])]
  · intro a
    constructor
    · unfold updateAnomaly
      rw [if_neg (by decide), if_pos (by decide)]
    · unfold updateAnomaly
      rw [if_neg (by decide), if_pos (by decide)]
  · intro a p h1 h2 h3
    unfold updateAnomaly
    rw [if_neg h1, if_neg (by simp [h2, h3])]

/-- Closed instance of the classification clauses of
`anomaly_counter_evolution`. -/
theorem anomaly_counter_evolution_witness :
    updateAnomaly 4 "(" = 5 ∧ updateAnomaly 4 "z" = 0 ∧ updateAnomaly 4 "ab" = 0 :=
  ⟨anomaly_counter_evolution.1 4 "(" (by decide) (by decide),
   anomaly_counter_evolution.2.1 4 "z" (by decide) (by decide),
   anomaly_counter_evolution.2.2.2.1 4 "ab" (by decide) (by decide) (by decide)⟩

/-- C4: with `n_predict = n > 0`, no end-of-generation token, no stall
and no anomalous run, exactly `n` pieces are emitted and appended, and
the `n + 1`-st iteration stops through the max-length condition without
emitting another piece (the final `same_token_count` is below 32 and the
final sampled token is not end-of-generation, so only the max-length
disjunct stops the loop). -/
theorem maxlen_stops_after_n (eng : Engine) (used0 n_prompt fuel n : Nat)
    (hn : eng.n_predict = (n : Int)) (hpos : 0 < n)
    (heog : ∀ i ≤ n, eng.is_eog (eng.sample_at i) = false)
    (hsr : ∀ i ≤ n, sameRun eng i < 32)
    (han : ∀ i < n, anomalyAfter eng i < 10)
    (hctx : used0 + n_prompt + n ≤ eng.n_ctx) :
    (generate eng (n + fuel + 1) used0 n_prompt).reason = .mainStop ∧
    (generate eng (n + fuel + 1) used0 n_prompt).state.n_decoded = n ∧
    (generate eng (n + fuel + 1) used0 n_prompt).state.pieces = piecesUpTo eng n ∧
    (generate eng (n + fuel + 1) used0 n_prompt).state.pieces.length = n ∧
    (generate eng (n + fuel + 1) used0 n_prompt).state.response = respUpTo eng n ∧
    (generate eng (n + fuel + 1) used0 n_prompt).state.sampleCalls = n + 1 ∧
    (generate eng (n + fuel + 1) used0 n_prompt).state.same_token_count < 32 ∧
    eng.is_eog (eng.sample_at n) = false := by
  obtain ⟨m, rfl⟩ : ∃ m, n = m + 1 := ⟨n - 1, by omega⟩
  have hrun := genLoop_run eng used0 n_prompt (m + 1)
    (fun j hj => ⟨by omega, heog j (by omega),
      by rw [hn]; exact_mod_cast hj, hsr j (by omega), han j hj⟩) (fuel + 1)
  have hstep := genStep_mainStop eng used0 n_prompt m
    (by omega) (Or.inr (Or.inl (by simp [hn])))
  have hgen : generate eng (m + 1 + fuel + 1) used0 n_prompt =
      genLoop eng (fuel + 1) (stateAfter eng used0 n_prompt (m + 1)) := by
    show genLoop eng (m + 1 + fuel + 1) (initState used0 n_prompt) = _
    rw [show (m + 1 + fuel + 1) = (m + 1) + (fuel + 1) from by omega]
    exact hrun
  rw [hgen, genLoop, hstep]
  exact ⟨rfl, rfl, rfl, piecesUpTo_length eng (m + 1), rfl, rfl,
    hsr (m + 1) (le_refl _), heog (m + 1) (le_refl _)⟩

/-- Closed instance of `maxlen_stops_after_n` on `engDistinct`
(`n_predict = 3`, pairwise distinct tokens). -/
theorem maxlen_stops_after_n_witness :
    engDistinct.n_predict = ((3 : Nat) : Int) ∧
    ((generate engDistinct (3 + 0 + 1) 0 2).reason = .mainStop ∧
     (generate engDistinct (3 + 0 + 1) 0 2).state.n_decoded = 3 ∧
     (generate engDistinct (3 + 0 + 1) 0 2).state.pieces = piecesUpTo engDistinct 3 ∧
     (generate engDistinct (3 + 0 + 1) 0 2).state.pieces.length = 3 ∧
     (generate engDistinct (3 + 0 + 1) 0 2).state.response = respUpTo engDistinct 3 ∧
     (generate engDistinct (3 + 0 + 1) 0 2).state.sampleCalls = 3 + 1 ∧
     (generate engDistinct (3 + 0 + 1) 0 2).state.same_token_count < 32 ∧
     engDistinct.is_eog (engDistinct.sample_at 3) = false) :=
  ⟨by decide, maxlen_stops_after_n engDistinct 0 2 0 3 (by decide) (by decide)
    (by decide) (by decide) (by decide) (by decide)⟩

/-- C5: a successful turn renders the conversation with the new user
message, takes exactly the byte slice `full[prev_len : new_len]` as the
prompt, and afterwards sets `prev_len` to the length of the suffix-free
render that includes the committed assistant turn. Under the append-only
template assumption the cursor is within bounds
(`prev_len ≤ full.length`) and non-decreasing, and the cursor invariant
is preserved for the next turn. -/
theorem incremental_prompt_cursor (render : List ChatMsg → Bool → Option (List Char))
    (u r : String) (st st' : ChatState) (prompt : List Char)
    (hA : AppendOnly render) (hB : RenderBase render st)
    (h : doTurn render u r st = .ok (st', prompt)) :
    ∃ full g2,
      render (st.messages ++ [⟨"user", u⟩]) true = some full ∧
      prompt = full.drop st.prev_len ∧
      st.prev_len ≤ full.length ∧
      st'.messages = (st.messages ++ [⟨"user", u⟩]) ++ [⟨"assistant", r⟩] ∧
      render st'.messages false = some g2 ∧
      st'.prev_len = g2.length ∧
      st.prev_len ≤ st'.prev_len ∧
      RenderBase render st' := by
  unfold doTurn at h
  dsimp only at h
  rcases hfull : render (st.messages ++ [⟨"user", u⟩]) true with _ | full
  · rw [hfull] at h; exact absurd h (by simp)
  rw [hfull] at h
  dsimp only at h
  rcases hg2 : render ((st.messages ++ [⟨"user", u⟩]) ++ [⟨"assistant", r⟩]) false with _ | g2
  · rw [hg2] at h; exact absurd h (by simp)
  rw [hg2] at h
  simp only [Except.ok.injEq, Prod.mk.injEq] at h
  obtain ⟨hst, hp⟩ := h
  subst hst
  subst hp
  have hb1 : st.prev_len ≤ full.length := by
    rcases hB with ⟨_, hpl⟩ | ⟨g, hgr, hlen⟩
    · omega
    · obtain ⟨t, ht⟩ := hA st.messages [⟨"user", u⟩] true g full hgr hfull
      subst ht
      simp [hlen]
  have hg2' : render (st.messages ++ [⟨"user", u⟩, ⟨"assistant", r⟩]) false = some g2 := by
    rw [← hg2]
    congr 1
    simp
  have hb2 : st.prev_len ≤ g2.length := by
    rcases hB with ⟨_, hpl⟩ | ⟨g, hgr, hlen⟩
    · omega
    · obtain ⟨t, ht⟩ := hA st.messages [⟨"user", u⟩, ⟨"assistant", r⟩] false g g2 hgr hg2'
      subst ht
      simp [hlen]
  exact ⟨full, g2, hfull, rfl, hb1, rfl, hg2, rfl, hb2,
    Or.inr ⟨g2, hg2, rfl⟩⟩

/-- Closed instance of `incremental_prompt_cursor` on the concrete
append-only template `renderEx`, for the first turn of a session. -/
theorem incremental_prompt_cursor_witness :
    doTurn renderEx "a" "b" chatStart = .ok (chatAfter, promptW) ∧
    (∃ full g2,
      renderEx (chatStart.messages ++ [⟨"user", "a"⟩]) true = some full ∧
      promptW = full.drop chatStart.prev_len ∧
      chatStart.prev_len ≤ full.length ∧
      chatAfter.messages = (chatStart.messages ++ [⟨"user", "a"⟩]) ++ [⟨"assistant", "b"⟩] ∧
      renderEx chatAfter.messages false = some g2 ∧
      chatAfter.prev_len = g2.length ∧
      chatStart.prev_len ≤ chatAfter.prev_len ∧
      RenderBase renderEx chatAfter) :=
  ⟨rfl, incremental_prompt_cursor renderEx "a" "b" chatStart chatAfter promptW
    appendOnly_renderEx (Or.inl ⟨rfl, rfl⟩) rfl⟩

/-- C6: the prompt of every `generate` call is tokenized with
`parse_special = true` always, and with a leading
beginning-of-sequence marker requested exactly when the context holds
zero tokens for the active sequence. -/
theorem first_turn_bos_flag (used : Nat) :
    (generateTokenizeArgs used).parse_special = true ∧
    ((generateTokenizeArgs used).add_special = true ↔ used = 0) := by
  refine ⟨rfl, ?_⟩
  unfold generateTokenizeArgs seq_pos_max
  simp only [beq_iff_eq]
  omega

/-- C7: a negative required length from chat-template rendering — at
either render site of a turn — makes the turn return exit code 1, and
the session loop propagates that code immediately, ending the whole
session rather than just the turn. -/
theorem template_failure_fatal (render : List ChatMsg → Bool → Option (List Char))
    (u r : String) (st : ChatState) (rest : List (String × String)) :
    (render (st.messages ++ [⟨"user", u⟩]) true = none →
      doTurn render u r st = .error 1 ∧
      runSession render st ((u, r) :: rest) = .error 1) ∧
    (∀ full, render (st.messages ++ [⟨"user", u⟩]) true = some full →
      render ((st.messages ++ [⟨"user", u⟩]) ++ [⟨"assistant", r⟩]) false = none →
      doTurn render u r st = .error 1 ∧
      runSession render st ((u, r) :: rest) = .error 1) := by
  constructor
  · intro h
    have hd : doTurn render u r st = .error 1 := by
      unfold doTurn
      dsimp only
      rw [h]
    exact ⟨hd, by simp [runSession, hd]⟩
  · intro full h1 h2
    have hd : doTurn render u r st = .error 1 := by
      unfold doTurn
      dsimp only
      rw [h1]
      dsimp only
      rw [h2]
    exact ⟨hd, by simp [runSession, hd]⟩

/-- Closed instance of `template_failure_fatal` for a renderer failing
at the first site and one failing at the second site. -/
theorem template_failure_fatal_witness :
    (doTurn renderNone "hi" "ok" ⟨[], 0⟩ = .error 1 ∧
     runSession renderNone ⟨[], 0⟩ [("hi", "ok")] = .error 1) ∧
    (doTurn renderHalf "hi" "ok" ⟨[], 0⟩ = .error 1 ∧
     runSession renderHalf ⟨[], 0⟩ [("hi", "ok")] = .error 1) :=
  ⟨(template_failure_fatal renderNone "hi" "ok" ⟨[], 0⟩ []).1 rfl,
   (template_failure_fatal renderHalf "hi" "ok" ⟨[], 0⟩ []).2 [] rfl rfl⟩

/-- C8: when the anomaly counter reaches 10 the loop stops before the
triggering piece is emitted — the stopping step leaves `response`,
`pieces` and `n_decoded` untouched — and on the constant-`(` engine the
returned response holds exactly the first nine pieces of the run. -/
theorem anomaly_stop_emits_nothing :
    (∀ (eng : Engine) (st : LoopState) (r : GenResult),
      genStep eng st = .inr r → r.reason = .anomalyStop →
      r.state.response = st.response ∧ r.state.pieces = st.pieces ∧
        r.state.n_decoded = st.n_decoded) ∧
    (genLoop engParen 100 (initState 0 3)).reason = .anomalyStop ∧
    (genLoop engParen 100 (initState 0 3)).state.response = "(((((((((" ∧
    (genLoop engParen 100 (initState 0 3)).state.pieces.length = 9 := by
  refine ⟨?_, by decide, by decide, by decide⟩
  intro eng st r h hr
  unfold genStep at h
  dsimp only at h
  repeat' split at h
  all_goals first
    | exact Sum.noConfusion h
    | (injection h with h; subst h; simp_all)

/-- Closed instance of `anomaly_stop_emits_nothing` at a state that has
already counted nine suspicious pieces. -/
theorem anomaly_stop_emits_nothing_witness :
    genStep engParen stAnomaly9 = .inr resAnomaly ∧
    (resAnomaly.state.response = stAnomaly9.response ∧
     resAnomaly.state.pieces = stAnomaly9.pieces ∧
     resAnomaly.state.n_decoded = stAnomaly9.n_decoded) :=
  ⟨by decide, anomaly_stop_emits_nothing.1 engParen stAnomaly9 resAnomaly (by decide) rfl⟩

/-- C9: with `n_predict ≤ 0` (and a prompt batch that fits the
context), `generate` returns an empty response with no pieces emitted,
yet performs exactly one decode — of the whole prompt batch — and one
sampling step before the max-length disjunct stops the loop. -/
theorem nonpositive_predict_one_decode (eng : Engine) (fuel used0 n_prompt : Nat)
    (hnp : eng.n_predict ≤ 0) (hctx : used0 + n_prompt ≤ eng.n_ctx) :
    ∃ st, generate eng (fuel + 1) used0 n_prompt = ⟨st, .mainStop⟩ ∧
      st.response = "" ∧ st.pieces = [] ∧ st.n_decoded = 0 ∧
      st.decodeCalls = 1 ∧ st.sampleCalls = 1 ∧ st.decodes = [(used0, n_prompt)] := by
  refine ⟨⟨"", [], eng.sample_at 0, 1, 0, 0, used0 + n_prompt, n_prompt, 1, 1, 1,
    [(used0, n_prompt)]⟩, ?_, rfl, rfl, rfl, rfl, rfl, rfl⟩
  have h1 : ¬ eng.n_ctx < used0 + n_prompt := by omega
  by_cases h0 : eng.sample_at 0 = -1 <;>
    · simp_all [generate, genLoop, genStep, initState, hnp]
      rw [if_neg (by omega)]

/-- Closed instance of `nonpositive_predict_one_decode` on `engZero`
(`n_predict = 0`). -/
theorem nonpositive_predict_one_decode_witness :
    engZero.n_predict ≤ 0 ∧
    (∃ st, generate engZero (0 + 1) 0 5 = ⟨st, .mainStop⟩ ∧
      st.response = "" ∧ st.pieces = [] ∧ st.n_decoded = 0 ∧
      st.decodeCalls = 1 ∧ st.sampleCalls = 1 ∧ st.decodes = [(0, 5)]) :=
  ⟨by decide, nonpositive_predict_one_decode engZero 0 0 5 (by decide) (by decide)⟩

/-- C10: a zero-length piece resets the anomaly counter to 0, so any
stream whose last non-suspicious piece is the empty piece restarts the
count there: after `xs ++ "" :: ys` the counter equals the count over
`ys` alone, and with at most nine pieces after the empty piece it stays
below the threshold of 10. -/
theorem empty_piece_resets_anomaly :
    (∀ a : Nat, updateAnomaly a "" = 0) ∧
    (∀ (xs ys : List String) (a : Nat),
      List.foldl updateAnomaly a (xs ++ "" :: ys) = List.foldl updateAnomaly 0 ys) ∧
    (∀ (xs ys : List String) (a : Nat), ys.length ≤ 9 →
      List.foldl updateAnomaly a (xs ++ "" :: ys) < 10) := by
  have h0 : ∀ a : Nat, updateAnomaly a "" = 0 := by
    intro a
    unfold updateAnomaly
    rw [if_neg (by decide), if_neg (by decide)]
  have hle : ∀ (ys : List String) (a : Nat),
      List.foldl updateAnomaly a ys ≤ a + ys.length := by
    intro ys
    induction ys with
    | nil => intro a; simp
    | cons y ys ih =>
      intro a
      have hy : updateAnomaly a y ≤ a + 1 := by
        unfold updateAnomaly
        repeat' split
        all_goals omega
      calc List.foldl updateAnomaly a (y :: ys)
          = List.foldl updateAnomaly (updateAnomaly a y) ys := rfl
        _ ≤ updateAnomaly a y + ys.length := ih _
        _ ≤ a + 1 + ys.length := by omega
        _ = a + (y :: ys).length := by simp; omega
  have h2 : ∀ (xs ys : List String) (a : Nat),
      List.foldl updateAnomaly a (xs ++ "" :: ys) = List.foldl updateAnomaly 0 ys := by
    intro xs ys a
    rw [List.foldl_append]
    show List.foldl updateAnomaly (updateAnomaly (List.foldl updateAnomaly a xs) "") ys = _
    rw [h0]
  refine ⟨h0, h2, fun xs ys a hlen => ?_⟩
  rw [h2]
  have := hle ys 0
  omega

/-- Closed instance of `empty_piece_resets_anomaly`: three suspicious
pieces, an empty piece, then two suspicious pieces stay below 10. -/
theorem empty_piece_resets_anomaly_witness :
    List.foldl updateAnomaly 0 (["(", "(", "("] ++ "" :: ["(", "("]) < 10 :=
  empty_piece_resets_anomaly.2.2 ["(", "(", "("] ["(", "("] 0 (by decide)

end SimpleChat
